import Mathlib

/-!
Shallow embedding of `pkg/engine/handlers/validation/validate_cel.go`:
the CEL validation handler (`validateCELHandler.Process`) and its parameter
resolver (`collectParams`).

External collaborators (the CEL compiler/validator pipeline, the resource
client, the exception matcher) are modelled as opaque data: function-valued
fields that script their outcomes, exactly as the handler observes them.
Machine effects that the claims talk about (evaluator invocations, namespace
fetches, parameter resolution) are recorded in an explicit event trace
threaded through the translation; a `none` result of `Process` stands for a
Go runtime panic (method call on a nil interface value).
-/

namespace KyvernoCel

/-- An opaque resolved parameter object (`runtime.Object`); identified by an id. -/
abbrev Obj := String

/-- An opaque label selector (`*metav1.LabelSelector`); the handler never inspects it. -/
abbrev Selector := String

/-- `schema.GroupVersionKind` as used by the handler. -/
structure GroupVersionKind where
  group : String
  version : String
  kind : String
deriving DecidableEq

/-- `corev1.Namespace` as the handler sees it: a name plus the rest of the
fetched metadata (opaque, kept as labels so a fetched namespace is
distinguishable from a synthesized one). -/
structure Namespace where
  name : String
  labels : List (String × String)
deriving DecidableEq

/-- The object-meta part of an `unstructured.Unstructured` the handler reads
(`GetNamespace`, `GetName`), plus an opaque payload for the rest. -/
structure ObjData where
  nspace : String
  name : String
  payload : String
deriving DecidableEq

/-- `unstructured.Unstructured`; `obj = none` models `u.Object == nil`. -/
structure Unstructured where
  obj : Option ObjData
deriving DecidableEq

/-- `u.GetNamespace()`: empty string when the inner object is nil. -/
def Unstructured.getNamespace (u : Unstructured) : String :=
  match u.obj with
  | none => ""
  | some o => o.nspace

instance {ε α : Type} [DecidableEq ε] [DecidableEq α] : DecidableEq (Except ε α) := fun a b =>
  match a, b with
  | Except.error x, Except.error y =>
    if h : x = y then isTrue (by rw [h]) else isFalse (by simp [h])
  | Except.error _, Except.ok _ => isFalse (by simp)
  | Except.ok _, Except.error _ => isFalse (by simp)
  | Except.ok x, Except.ok y =>
    if h : x = y then isTrue (by rw [h]) else isFalse (by simp [h])

/-- A matched `kyvernov2beta1.PolicyException` as the handler consumes it:
its coordinates and the (opaque collaborator) result of
`cache.MetaNamespaceKeyFunc` applied to it. -/
structure Exc where
  nspace : String
  name : String
  keyResult : Except String String
deriving DecidableEq

/-- `validatingadmissionpolicy.PolicyDecisionAction`. -/
inductive PolicyDecisionAction where
  | Admit
  | Deny
deriving DecidableEq

/-- `validatingadmissionpolicy.PolicyDecisionEvaluation`. -/
inductive PolicyDecisionEvaluation where
  | evalAdmit
  | evalDeny
  | evalError
deriving DecidableEq

/-- `validatingadmissionpolicy.PolicyDecision` (the fields the handler reads). -/
structure PolicyDecision where
  action : PolicyDecisionAction
  evaluation : PolicyDecisionEvaluation
  message : String
deriving DecidableEq

/-- `validatingadmissionpolicy.ValidateResult`. The zero value (both lists
empty) is the sentinel meaning the CEL preconditions were not met. -/
structure ValidateResult where
  decisions : List PolicyDecision
  auditAnnotations : List (String × String)
deriving DecidableEq

/-- `datautils.DeepEqual(validationResult, ValidateResult{})`. -/
def ValidateResult.isEmptyResult (r : ValidateResult) : Bool :=
  r.decisions.isEmpty && r.auditAnnotations.isEmpty

/-- `admissionregistrationv1alpha1.ParamKind`. -/
structure ParamKind where
  apiVersion : String
  kind : String
deriving DecidableEq

/-- `admissionregistrationv1alpha1.ParameterNotFoundActionType`. -/
inductive ParameterNotFoundAction where
  | allow
  | deny
deriving DecidableEq

/-- `admissionregistrationv1alpha1.ParamRef`; the field `nspace` renders the
Go field `Namespace` (a Lean keyword). -/
structure ParamRef where
  name : String
  selector : Option Selector
  nspace : String
  parameterNotFoundAction : Option ParameterNotFoundAction
deriving DecidableEq

/-- The `engineapi.Client` capability set used by the handler, each call
scripted by its outcome (`Except` = Go `(value, error)`). -/
structure Client where
  getNamespace : String → Except String Namespace
  isNamespaced : String → String → String → Except String Bool
  getResource : String → String → String → String → Except String Obj
  listResource : String → String → String → Selector → Except String (List Obj)

/-- `validateCELHandler`; `client = none` models a nil `engineapi.Client`
interface value. -/
structure Handler where
  client : Option Client

/-- Modelled from the spec: the rule's optional `ParamSpec` — a kind
descriptor plus a reference (`rule.Validation.CEL.ParamKind` /
`rule.Validation.CEL.ParamRef`, nilable pointers in the Go API types, which
are not under src/). -/
structure CELSpec where
  paramKind : Option ParamKind
  paramRef : Option ParamRef
deriving DecidableEq

/-- Modelled from the spec: `rule.Validation.CEL.HasParam()` — the rule
declares parameters when both the kind descriptor and the reference are
present. -/
def CELSpec.hasParam (c : CELSpec) : Bool :=
  c.paramKind.isSome && c.paramRef.isSome

/-- The slice of `kyvernov1.Rule` that the handler's control flow observes:
its name and its CEL parameter declaration. The expression lists
(validations, preconditions, variables, audit annotations) flow only into
the opaque compiler/validator collaborator, modelled by `Evaluator`. -/
structure Rule where
  name : String
  cel : CELSpec

/-- The opaque compile-and-validate pipeline built inside `Process`
(`celutils.NewCompiler`, the compiled filters, `NewVersionedAttributes`,
`validator.Validate`), scripted by its outcomes: a compiler-construction
error, a versioned-attributes construction error, and the per-invocation
validation function (varying arguments: the parameter object and the
namespace context). -/
structure Evaluator where
  compileError : Option String
  attrError : Option String
  validate : Option Obj → Option Namespace → ValidateResult

/-- The parts of `engineapi.PolicyContext` that the handler reads. -/
structure PolicyContext where
  exceptionMatch : Option Exc
  vapGenerated : Bool
  gvk : GroupVersionKind
  oldResource : Unstructured

/-- `engineapi.RuleStatus` (the four verdicts produced by this handler). -/
inductive RuleStatus where
  | pass
  | fail
  | skip
  | error
deriving DecidableEq

/-- Modelled from the spec: one `engineapi.RuleResponse` — a verdict carrying
a human-readable message, an optional error cause, and (for
exception-driven skips) the matched exception. -/
structure RuleResponse where
  name : String
  status : RuleStatus
  message : String
  cause : Option String
  exception : Option Exc
deriving DecidableEq

/-- Modelled from the spec: `engineapi.RulePass`. -/
def rulePass (name msg : String) : RuleResponse :=
  ⟨name, RuleStatus.pass, msg, none, none⟩

/-- Modelled from the spec: `engineapi.RuleFail`. -/
def ruleFail (name msg : String) : RuleResponse :=
  ⟨name, RuleStatus.fail, msg, none, none⟩

/-- Modelled from the spec: `engineapi.RuleSkip`. -/
def ruleSkip (name msg : String) : RuleResponse :=
  ⟨name, RuleStatus.skip, msg, none, none⟩

/-- Modelled from the spec: `engineapi.RuleError` (message plus cause). -/
def ruleError (name msg : String) (cause : Option String) : RuleResponse :=
  ⟨name, RuleStatus.error, msg, cause, none⟩

/-- Modelled from the spec: `RuleResponse.WithException`. -/
def withException (r : RuleResponse) (e : Exc) : RuleResponse :=
  { r with exception := some e }

/-- Modelled from the spec: `handlers.WithError` — a single error response. -/
def withError (name msg err : String) : List RuleResponse :=
  [ruleError name msg (some err)]

/-- The external effects the claims observe, recorded as a trace. -/
inductive Event where
  | nsFetch (name : String)
  | paramResolve
  | evalInvoke (param : Option Obj) (nsObj : Option Namespace)
deriving DecidableEq

/-- `strings.Count(gv, "/")`: the number of slashes in the string. -/
def countSlash : List Char → Nat
  | [] => 0
  | c :: cs => (if c = '/' then 1 else 0) + countSlash cs

/-- Splitting a character list at its first slash (`strings.Index`). -/
def splitAtFirstSlash : List Char → List Char × List Char
  | [] => ([], [])
  | c :: cs =>
    if c = '/' then ([], cs)
    else
      let r := splitAtFirstSlash cs
      (c :: r.1, r.2)

/-- `schema.ParseGroupVersion` (apimachinery dependency): empty or "/" gives
the empty group/version; no slash means version-only; one slash splits at
it; more is an error. -/
def parseGroupVersion (s : String) : Except String (String × String) :=
  if s = "" ∨ s = "/" then Except.ok ("", "")
  else
    match countSlash s.toList with
    | 0 => Except.ok ("", s)
    | 1 =>
      let p := splitAtFirstSlash s.toList
      Except.ok (String.mk p.1, String.mk p.2)
    | _ => Except.error ("unexpected GroupVersion string: " ++ s)

/-- `collectParams`: resolves the rule's parameter objects. `client = none`
is a nil interface; calling a method on it is a Go runtime panic, rendered
as the outer `none`. -/
def collectParams (client : Option Client) (paramKind : ParamKind)
    (paramRef : ParamRef) (nspace : String) : Option (Except String (List Obj)) :=
  match parseGroupVersion paramKind.apiVersion with
  | Except.error _ => some (Except.error "can't parse the parameter resource group version")
  | Except.ok (group, version) =>
    match client with
    | none => none
    | some c =>
      match c.isNamespaced group version paramKind.kind with
      | Except.error err =>
          some (Except.error ("failed to check if resource is namespaced or not (" ++ err ++ ")"))
      | Except.ok isNamespaced =>
        let pnsResult : Except String String :=
          if isNamespaced then
            -- params namespace defaults to the incoming object's namespace
            if paramRef.nspace ≠ "" then Except.ok paramRef.nspace
            else if nspace = "" then
              Except.error "can't use namespaced paramRef to match cluster-scoped resources"
            else Except.ok nspace
          else
            -- it isn't allowed to set namespace for cluster-scoped params
            if paramRef.nspace ≠ "" then
              Except.error "paramRef.namespace must not be provided for a cluster-scoped `paramKind`"
            else Except.ok ""
        match pnsResult with
        | Except.error err => some (Except.error err)
        | Except.ok paramsNamespace =>
          if paramRef.name ≠ "" then
            some (match c.getResource paramKind.apiVersion paramKind.kind paramsNamespace paramRef.name with
              | Except.error err => Except.error err
              | Except.ok param => Except.ok [param])
          else
            let listed : Except String (List Obj) :=
              match paramRef.selector with
              | some sel =>
                  match c.listResource paramKind.apiVersion paramKind.kind paramsNamespace sel with
                  | Except.error err => Except.error err
                  | Except.ok items => Except.ok items
              | none => Except.ok []
            some (match listed with
              | Except.error err => Except.error err
              | Except.ok params =>
                  if params.length = 0 ∧ paramRef.parameterNotFoundAction = some ParameterNotFoundAction.deny then
                    Except.error "no params found"
                  else Except.ok params)

/-- The request's namespace name: from the resource, or from the old
resource on DELETE (`resource.Object == nil`). -/
def requestNamespace (pctx : PolicyContext) (resource : Unstructured) : String :=
  match resource.obj with
  | none => pctx.oldResource.getNamespace
  | some o => o.nspace

/-- The namespace name actually used: forced empty when the incoming kind is
the core/v1 `Namespace` kind itself. -/
def effectiveNamespace (pctx : PolicyContext) (resource : Unstructured) : String :=
  if pctx.gvk.kind = "Namespace" ∧ pctx.gvk.version = "v1" ∧ pctx.gvk.group = "" then ""
  else requestNamespace pctx resource

/-- Namespace-context resolution: fetch via the client when the name is
non-empty and a client exists; synthesize `{Name: ns}` when the client is
nil; leave the context nil when the name is empty. -/
def resolveNamespace (h : Handler) (ns : String) : Except String (Option Namespace) :=
  if ns ≠ "" then
    match h.client with
    | some c => (c.getNamespace ns).map some
    | none => Except.ok (some { name := ns, labels := [] })
  else Except.ok none

/-- The trace of the namespace-resolution step: a fetch happens exactly when
the name is non-empty and the client is non-nil. -/
def namespaceTrace (h : Handler) (ns : String) : List Event :=
  if ns ≠ "" then
    match h.client with
    | some _ => [Event.nsFetch ns]
    | none => []
  else []

/-- The inner decision loop of the result-aggregation: Admit with an
evaluation error returns an error response, Deny returns a fail response,
Admit without error continues. -/
def scanDecisions (name : String) : List PolicyDecision → Option RuleResponse
  | [] => none
  | d :: rest =>
    match d.action with
    | PolicyDecisionAction.Admit =>
        if d.evaluation = PolicyDecisionEvaluation.evalError then
          some (ruleError name d.message none)
        else scanDecisions name rest
    | PolicyDecisionAction.Deny => some (ruleFail name d.message)

/-- The result-aggregation loop of `Process`: an empty result yields the
preconditions skip, otherwise the result's decisions are scanned; when every
result is exhausted the rule passes. -/
def aggregateResults (name : String) : List ValidateResult → List RuleResponse
  | [] => [rulePass name ("Validation rule '" ++ name ++ "' passed.")]
  | r :: rest =>
    if r.isEmptyResult then [ruleSkip name "cel preconditions not met"]
    else
      match scanDecisions name r.decisions with
      | some resp => [resp]
      | none => aggregateResults name rest

/-- The handler's full result: the (returned) resource, the rule responses,
and the observed effect trace. -/
structure ProcessOutput where
  resource : Unstructured
  responses : List RuleResponse
  trace : List Event
deriving DecidableEq

/-- `validateCELHandler.Process`. A `none` overall result models a Go
runtime panic (nil-interface method call inside `collectParams`). -/
def Process (h : Handler) (pctx : PolicyContext) (resource : Unstructured)
    (rule : Rule) (ev : Evaluator) : Option ProcessOutput :=
  -- policy exception check (first and unconditional)
  match pctx.exceptionMatch with
  | some exception =>
    match exception.keyResult with
    | Except.error err =>
        some ⟨resource, withError rule.name "failed to compute exception key" err, []⟩
    | Except.ok key =>
        some ⟨resource,
          [withException (ruleSkip rule.name ("rule skipped due to policy exception " ++ key)) exception],
          []⟩
  | none =>
    -- corresponding ValidatingAdmissionPolicy already generated: empty response
    if pctx.vapGenerated then some ⟨resource, [], []⟩
    else
      -- compile CEL expressions (opaque collaborator)
      match ev.compileError with
      | some err =>
          some ⟨resource, withError rule.name "Error while creating composited compiler" err, []⟩
      | none =>
        -- namespace resolution (with the Namespace-kind special case)
        match resolveNamespace h (effectiveNamespace pctx resource) with
        | Except.error err =>
            some ⟨resource,
              [ruleError rule.name "Error getting the resource's namespace" (some err)],
              namespaceTrace h (effectiveNamespace pctx resource)⟩
        | Except.ok namespaceObj =>
          -- versioned attributes construction (opaque collaborator)
          match ev.attrError with
          | some err =>
              some ⟨resource, withError rule.name "error while creating versioned attributes" err,
                namespaceTrace h (effectiveNamespace pctx resource)⟩
          | none =>
            if rule.cel.hasParam then
              match rule.cel.paramKind, rule.cel.paramRef with
              | some paramKind, some paramRef =>
                match collectParams h.client paramKind paramRef (effectiveNamespace pctx resource) with
                | none => none
                | some (Except.error err) =>
                    some ⟨resource,
                      [ruleError rule.name "error in parameterized resource" (some err)],
                      namespaceTrace h (effectiveNamespace pctx resource) ++ [Event.paramResolve]⟩
                | some (Except.ok params) =>
                    some ⟨resource,
                      aggregateResults rule.name
                        (params.map fun p => ev.validate (some p) namespaceObj),
                      namespaceTrace h (effectiveNamespace pctx resource) ++
                        Event.paramResolve :: params.map fun p => Event.evalInvoke (some p) namespaceObj⟩
              | _, _ => none
            else
              some ⟨resource,
                aggregateResults rule.name [ev.validate none namespaceObj],
                namespaceTrace h (effectiveNamespace pctx resource) ++
                  [Event.evalInvoke none namespaceObj]⟩

/-- The evaluator invocations recorded in a trace, each with its parameter
object and namespace context, in order. -/
def evalInvocations : List Event → List (Option Obj × Option Namespace)
  | [] => []
  | Event.evalInvoke p n :: es => (p, n) :: evalInvocations es
  | Event.nsFetch _ :: es => evalInvocations es
  | Event.paramResolve :: es => evalInvocations es

/-! ### Concrete fixtures used by witnesses and counterexamples -/

/-- A client whose selector listing returns two parameter objects. -/
def fanClient : Client :=
  { getNamespace := fun _ => Except.ok ⟨"other", [("team", "x")]⟩
    isNamespaced := fun _ _ _ => Except.ok false
    getResource := fun _ _ _ _ => Except.ok "o"
    listResource := fun _ _ _ _ => Except.ok ["p1", "p2"] }

def fanPctx : PolicyContext := ⟨none, false, ⟨"apps", "v1", "Deployment"⟩, ⟨none⟩⟩

def fanRes : Unstructured := ⟨some ⟨"", "nm", "payload"⟩⟩

def fanRule : Rule := ⟨"r", ⟨some ⟨"v1", "ConfigMap"⟩, some ⟨"", some "s", "", none⟩⟩⟩

/-- Scripted evaluator: deny against the first parameter, admit otherwise. -/
def fanEv : Evaluator :=
  ⟨none, none, fun p _ =>
    if p = some "p1" then
      ⟨[⟨PolicyDecisionAction.Deny, PolicyDecisionEvaluation.evalDeny, "denied"⟩], []⟩
    else ⟨[⟨PolicyDecisionAction.Admit, PolicyDecisionEvaluation.evalAdmit, "ok"⟩], []⟩⟩

/-- A client whose namespace fetches are visibly "fetched" (labelled). -/
def nsClient : Client :=
  { getNamespace := fun n => Except.ok ⟨n, [("fetched", "yes")]⟩
    isNamespaced := fun _ _ _ => Except.ok true
    getResource := fun _ _ _ _ => Except.ok "o"
    listResource := fun _ _ _ _ => Except.ok [] }

def nsPctx : PolicyContext := ⟨none, false, ⟨"", "v1", "Namespace"⟩, ⟨none⟩⟩

def nsRes : Unstructured := ⟨some ⟨"selfns", "selfns", "data"⟩⟩

def nsRule : Rule := ⟨"r", ⟨none, none⟩⟩

def nsEv : Evaluator :=
  ⟨none, none, fun _ _ =>
    ⟨[⟨PolicyDecisionAction.Admit, PolicyDecisionEvaluation.evalAdmit, "ok"⟩], []⟩⟩

/-- A client for the scoping-legality witness: the parameter kind is
namespace-scoped and named fetches succeed. -/
def scopeClient : Client :=
  { getNamespace := fun _ => Except.ok ⟨"ignored", []⟩
    isNamespaced := fun _ _ _ => Except.ok true
    getResource := fun _ _ _ _ => Except.ok "pobj"
    listResource := fun _ _ _ _ => Except.ok [] }

/-- A client whose selector listing matches zero objects. -/
def zeroClient : Client :=
  { getNamespace := fun n => Except.ok ⟨n, []⟩
    isNamespaced := fun _ _ _ => Except.ok true
    getResource := fun _ _ _ _ => Except.ok "o"
    listResource := fun _ _ _ _ => Except.ok [] }

def zeroPctx : PolicyContext := ⟨none, false, ⟨"apps", "v1", "Deployment"⟩, ⟨none⟩⟩

def zeroRes : Unstructured := ⟨some ⟨"default", "nm", "payload"⟩⟩

def zeroRuleAllow : Rule := ⟨"r", ⟨some ⟨"v1", "ConfigMap"⟩, some ⟨"", some "sel", "", none⟩⟩⟩

def zeroRuleDeny : Rule :=
  ⟨"r", ⟨some ⟨"v1", "ConfigMap"⟩, some ⟨"", some "sel", "", some ParameterNotFoundAction.deny⟩⟩⟩

def zeroEv : Evaluator :=
  ⟨none, none, fun _ _ =>
    ⟨[⟨PolicyDecisionAction.Admit, PolicyDecisionEvaluation.evalAdmit, "ok"⟩], []⟩⟩

def excOk : Exc := ⟨"ens", "ename", Except.ok "ens/ename"⟩

def excPctx : PolicyContext := ⟨some excOk, false, ⟨"apps", "v1", "Deployment"⟩, ⟨none⟩⟩

def vapExc : Exc := ⟨"ns1", "e1", Except.ok "ns1/e1"⟩

def vapPctx : PolicyContext := ⟨some vapExc, true, ⟨"apps", "v1", "Deployment"⟩, ⟨none⟩⟩

def plainRes : Unstructured := ⟨some ⟨"d", "n", "p"⟩⟩

def plainRule : Rule := ⟨"r", ⟨none, none⟩⟩

def plainEv : Evaluator :=
  ⟨none, none, fun _ _ =>
    ⟨[⟨PolicyDecisionAction.Admit, PolicyDecisionEvaluation.evalAdmit, "ok"⟩], []⟩⟩

def panPctx : PolicyContext := ⟨none, false, ⟨"apps", "v1", "Deployment"⟩, ⟨none⟩⟩

def panRes : Unstructured := ⟨some ⟨"prod", "n", "p"⟩⟩

def panRule : Rule := ⟨"r", ⟨some ⟨"v1", "ConfigMap"⟩, some ⟨"cfg", none, "", none⟩⟩⟩

/-! ### Helper lemmas -/

theorem scanDecisions_none (name : String) (ds : List PolicyDecision)
    (h : ∀ d ∈ ds, d.action = PolicyDecisionAction.Admit ∧
      d.evaluation ≠ PolicyDecisionEvaluation.evalError) :
    scanDecisions name ds = none := by
  induction ds with
  | nil => rfl
  | cons d rest ih =>
    obtain ⟨ha, he⟩ := h d (List.mem_cons_self d rest)
    simp only [scanDecisions]
    rw [ha]
    simp only [if_neg he]
    exact ih fun e hm => h e (List.mem_cons_of_mem d hm)

theorem scanDecisions_deny (name : String) (ds1 : List PolicyDecision)
    (d : PolicyDecision) (ds2 : List PolicyDecision)
    (h1 : ∀ e ∈ ds1, e.action = PolicyDecisionAction.Admit ∧
      e.evaluation ≠ PolicyDecisionEvaluation.evalError)
    (hd : d.action = PolicyDecisionAction.Deny) :
    scanDecisions name (ds1 ++ d :: ds2) = some (ruleFail name d.message) := by
  induction ds1 with
  | nil =>
    simp only [List.nil_append, scanDecisions]
    rw [hd]
  | cons e rest ih =>
    obtain ⟨ha, he⟩ := h1 e (List.mem_cons_self e rest)
    simp only [List.cons_append, scanDecisions]
    rw [ha]
    simp only [if_neg he]
    exact ih fun x hm => h1 x (List.mem_cons_of_mem e hm)

theorem aggregateResults_cons_continue (name : String) (r : ValidateResult)
    (rest : List ValidateResult)
    (hne : r.isEmptyResult = false)
    (hscan : scanDecisions name r.decisions = none) :
    aggregateResults name (r :: rest) = aggregateResults name rest := by
  simp [aggregateResults, hne, hscan]

theorem evalInvocations_append (a b : List Event) :
    evalInvocations (a ++ b) = evalInvocations a ++ evalInvocations b := by
  induction a with
  | nil => rfl
  | cons e rest ih => cases e <;> simp [evalInvocations, ih]

theorem evalInvocations_map_invoke (ps : List Obj) (n : Option Namespace) :
    evalInvocations (ps.map fun p => Event.evalInvoke (some p) n) =
      ps.map fun p => (some p, n) := by
  induction ps with
  | nil => rfl
  | cons p rest ih => simp [evalInvocations, ih]

theorem evalInvocations_namespaceTrace (h : Handler) (ns : String) :
    evalInvocations (namespaceTrace h ns) = [] := by
  unfold namespaceTrace
  split
  · cases h.client <;> rfl
  · rfl

theorem namespaceTrace_empty (h : Handler) : namespaceTrace h "" = [] := by
  simp [namespaceTrace]

theorem resolveNamespace_empty (h : Handler) : resolveNamespace h "" = Except.ok none := by
  simp [resolveNamespace]

theorem effectiveNamespace_nsKind (pctx : PolicyContext) (resource : Unstructured)
    (hgvk : pctx.gvk = ⟨"", "v1", "Namespace"⟩) :
    effectiveNamespace pctx resource = "" := by
  simp [effectiveNamespace, hgvk]

theorem namespaceTrace_nilClient (ns : String) : namespaceTrace ⟨none⟩ ns = [] := by
  unfold namespaceTrace
  split <;> rfl

theorem Process_noParam (h : Handler) (pctx : PolicyContext) (resource : Unstructured)
    (rule : Rule) (ev : Evaluator) (nsObj : Option Namespace)
    (hexc : pctx.exceptionMatch = none)
    (hvap : pctx.vapGenerated = false)
    (hcomp : ev.compileError = none)
    (hns : resolveNamespace h (effectiveNamespace pctx resource) = Except.ok nsObj)
    (hattr : ev.attrError = none)
    (hnp : rule.cel.hasParam = false) :
    Process h pctx resource rule ev =
      some ⟨resource, aggregateResults rule.name [ev.validate none nsObj],
        namespaceTrace h (effectiveNamespace pctx resource) ++ [Event.evalInvoke none nsObj]⟩ := by
  unfold Process
  rw [hexc, hcomp, hns, hattr]
  simp [hvap, hnp]

theorem Process_withParam (h : Handler) (pctx : PolicyContext) (resource : Unstructured)
    (rule : Rule) (ev : Evaluator) (nsObj : Option Namespace) (pk : ParamKind) (pr : ParamRef)
    (hexc : pctx.exceptionMatch = none)
    (hvap : pctx.vapGenerated = false)
    (hcomp : ev.compileError = none)
    (hns : resolveNamespace h (effectiveNamespace pctx resource) = Except.ok nsObj)
    (hattr : ev.attrError = none)
    (hpk : rule.cel.paramKind = some pk)
    (hpr : rule.cel.paramRef = some pr) :
    Process h pctx resource rule ev =
      (match collectParams h.client pk pr (effectiveNamespace pctx resource) with
       | none => none
       | some (Except.error err) =>
           some ⟨resource, [ruleError rule.name "error in parameterized resource" (some err)],
             namespaceTrace h (effectiveNamespace pctx resource) ++ [Event.paramResolve]⟩
       | some (Except.ok params) =>
           some ⟨resource,
             aggregateResults rule.name (params.map fun p => ev.validate (some p) nsObj),
             namespaceTrace h (effectiveNamespace pctx resource) ++
               Event.paramResolve :: params.map fun p => Event.evalInvoke (some p) nsObj⟩) := by
  have hhp : rule.cel.hasParam = true := by
    simp [CELSpec.hasParam, hpk, hpr]
  unfold Process
  rw [hexc, hcomp, hns, hattr, hhp, hpk, hpr]
  simp [hvap]

/-! ### Claims -/

/-- C1 (amended): if the ordered sequence of evaluation results contains a
decision with action Deny, the final verdict is Fail carrying that
decision's message, regardless of Admit/Success decisions anywhere and of
anything occurring after the deny — provided every earlier result is
non-empty and every earlier decision is an Admit with a non-error outcome
(an empty result encountered earlier yields Skip instead, and an Admit
decision with an Error outcome encountered earlier yields Error instead). -/
theorem deny_yields_fail_unless_earlier_skip_or_error (name : String)
    (pre post : List ValidateResult) (r : ValidateResult)
    (ds1 ds2 : List PolicyDecision) (d : PolicyDecision)
    (hpre : ∀ q ∈ pre, q.isEmptyResult = false ∧
      ∀ e ∈ q.decisions, e.action = PolicyDecisionAction.Admit ∧
        e.evaluation ≠ PolicyDecisionEvaluation.evalError)
    (hr : r.decisions = ds1 ++ d :: ds2)
    (h1 : ∀ e ∈ ds1, e.action = PolicyDecisionAction.Admit ∧
      e.evaluation ≠ PolicyDecisionEvaluation.evalError)
    (hd : d.action = PolicyDecisionAction.Deny) :
    aggregateResults name (pre ++ r :: post) = [ruleFail name d.message] := by
  induction pre with
  | nil =>
    have hne : r.isEmptyResult = false := by
      cases ds1 <;> simp [ValidateResult.isEmptyResult, hr]
    simp only [List.nil_append, aggregateResults, hne, Bool.false_eq_true, if_false]
    rw [hr, scanDecisions_deny name ds1 d ds2 h1 hd]
  | cons q rest ih =>
    obtain ⟨hqe, hqd⟩ := hpre q (List.mem_cons_self q rest)
    rw [List.cons_append,
      aggregateResults_cons_continue name q _ hqe (scanDecisions_none name q.decisions hqd)]
    exact ih fun x hm => hpre x (List.mem_cons_of_mem q hm)

theorem deny_yields_fail_unless_earlier_skip_or_error_witness :
    aggregateResults "r"
      ([⟨[⟨PolicyDecisionAction.Admit, PolicyDecisionEvaluation.evalAdmit, "ok"⟩], []⟩] ++
        (⟨[⟨PolicyDecisionAction.Admit, PolicyDecisionEvaluation.evalAdmit, "ok2"⟩,
           ⟨PolicyDecisionAction.Deny, PolicyDecisionEvaluation.evalDeny, "blocked"⟩],
          []⟩ : ValidateResult) ::
        [⟨[⟨PolicyDecisionAction.Admit, PolicyDecisionEvaluation.evalError, "later"⟩], []⟩]) =
      [ruleFail "r" "blocked"] :=
  deny_yields_fail_unless_earlier_skip_or_error "r"
    [⟨[⟨PolicyDecisionAction.Admit, PolicyDecisionEvaluation.evalAdmit, "ok"⟩], []⟩]
    [⟨[⟨PolicyDecisionAction.Admit, PolicyDecisionEvaluation.evalError, "later"⟩], []⟩]
    ⟨[⟨PolicyDecisionAction.Admit, PolicyDecisionEvaluation.evalAdmit, "ok2"⟩,
      ⟨PolicyDecisionAction.Deny, PolicyDecisionEvaluation.evalDeny, "blocked"⟩], []⟩
    [⟨PolicyDecisionAction.Admit, PolicyDecisionEvaluation.evalAdmit, "ok2"⟩] []
    ⟨PolicyDecisionAction.Deny, PolicyDecisionEvaluation.evalDeny, "blocked"⟩
    (by decide) rfl (by decide) rfl

/-- C1 counterexample: an Admit decision with an Error outcome produced by an
earlier evaluator invocation wins over a later Deny — the verdict is Error,
not Fail, although the sequence contains a Deny decision. -/
theorem error_before_deny_yields_error_not_fail :
    aggregateResults "r"
      [⟨[⟨PolicyDecisionAction.Admit, PolicyDecisionEvaluation.evalError, "eval boom"⟩], []⟩,
       ⟨[⟨PolicyDecisionAction.Deny, PolicyDecisionEvaluation.evalDeny, "denied"⟩], []⟩] =
      [ruleError "r" "eval boom" none] ∧
    ruleError "r" "eval boom" none ≠ ruleFail "r" "denied" :=
  ⟨rfl, by decide⟩

/-- C4 (amended): an empty (preconditions-unmet) result yields the Skip
verdict "cel preconditions not met", and later results are not processed —
provided every earlier result is non-empty and contains only Admit decisions
with non-error outcomes (a Deny or an Admit-with-Error decision in an
earlier result terminates aggregation first). -/
theorem empty_result_yields_skip_unless_earlier_terminal (name : String)
    (pre post : List ValidateResult) (r : ValidateResult)
    (hpre : ∀ q ∈ pre, q.isEmptyResult = false ∧
      ∀ e ∈ q.decisions, e.action = PolicyDecisionAction.Admit ∧
        e.evaluation ≠ PolicyDecisionEvaluation.evalError)
    (hr : r.isEmptyResult = true) :
    aggregateResults name (pre ++ r :: post) = [ruleSkip name "cel preconditions not met"] := by
  induction pre with
  | nil => simp [aggregateResults, hr]
  | cons q rest ih =>
    obtain ⟨hqe, hqd⟩ := hpre q (List.mem_cons_self q rest)
    rw [List.cons_append,
      aggregateResults_cons_continue name q _ hqe (scanDecisions_none name q.decisions hqd)]
    exact ih fun x hm => hpre x (List.mem_cons_of_mem q hm)

theorem empty_result_yields_skip_unless_earlier_terminal_witness :
    aggregateResults "r"
      ([⟨[⟨PolicyDecisionAction.Admit, PolicyDecisionEvaluation.evalAdmit, "ok"⟩], []⟩] ++
        (⟨[], []⟩ : ValidateResult) ::
        [⟨[⟨PolicyDecisionAction.Deny, PolicyDecisionEvaluation.evalDeny, "later deny"⟩], []⟩]) =
      [ruleSkip "r" "cel preconditions not met"] :=
  empty_result_yields_skip_unless_earlier_terminal "r"
    [⟨[⟨PolicyDecisionAction.Admit, PolicyDecisionEvaluation.evalAdmit, "ok"⟩], []⟩]
    [⟨[⟨PolicyDecisionAction.Deny, PolicyDecisionEvaluation.evalDeny, "later deny"⟩], []⟩]
    ⟨[], []⟩ (by decide) rfl

/-- C4 counterexample: a Deny decision in an earlier result wins over a later
empty result — the verdict is Fail, not Skip, although the sequence contains
the empty sentinel. -/
theorem deny_before_empty_yields_fail_not_skip :
    aggregateResults "r"
      [⟨[⟨PolicyDecisionAction.Deny, PolicyDecisionEvaluation.evalDeny, "denied"⟩], []⟩,
       ⟨[], []⟩] = [ruleFail "r" "denied"] ∧
    ruleFail "r" "denied" ≠ ruleSkip "r" "cel preconditions not met" :=
  ⟨rfl, by decide⟩

/-- C2 (amended): with a resolved parameter list `params`, the evaluator is
invoked exactly once per element and in listing order — whatever decisions
(including Deny) any invocation produces, since all invocations happen
before result aggregation; with no parameter declaration it is invoked
exactly once. -/
theorem fanout_invocation_count (h : Handler) (pctx : PolicyContext)
    (resource : Unstructured) (rule : Rule) (ev : Evaluator) (nsObj : Option Namespace)
    (hexc : pctx.exceptionMatch = none)
    (hvap : pctx.vapGenerated = false)
    (hcomp : ev.compileError = none)
    (hns : resolveNamespace h (effectiveNamespace pctx resource) = Except.ok nsObj)
    (hattr : ev.attrError = none) :
    (∀ pk pr params, rule.cel.paramKind = some pk → rule.cel.paramRef = some pr →
      collectParams h.client pk pr (effectiveNamespace pctx resource) =
        some (Except.ok params) →
      (Process h pctx resource rule ev).map (fun o => evalInvocations o.trace) =
        some (params.map fun p => (some p, nsObj))) ∧
    (rule.cel.hasParam = false →
      (Process h pctx resource rule ev).map (fun o => evalInvocations o.trace) =
        some [(none, nsObj)]) := by
  constructor
  · intro pk pr params hpk hpr hcoll
    have heq := Process_withParam h pctx resource rule ev nsObj pk pr
      hexc hvap hcomp hns hattr hpk hpr
    rw [hcoll] at heq
    rw [heq]
    simp [evalInvocations_append, evalInvocations_map_invoke,
      evalInvocations_namespaceTrace, evalInvocations]
  · intro hnp
    have heq := Process_noParam h pctx resource rule ev nsObj
      hexc hvap hcomp hns hattr hnp
    rw [heq]
    simp [evalInvocations_append, evalInvocations_namespaceTrace, evalInvocations]

theorem fanout_invocation_count_witness :
    (Process ⟨some fanClient⟩ fanPctx fanRes fanRule fanEv).map
        (fun o => evalInvocations o.trace) =
      some (["p1", "p2"].map fun p => (some p, (none : Option Namespace))) :=
  (fanout_invocation_count ⟨some fanClient⟩ fanPctx fanRes fanRule fanEv none
      rfl rfl rfl (by decide) rfl).1
    ⟨"v1", "ConfigMap"⟩ ⟨"", some "s", "", none⟩ ["p1", "p2"] rfl rfl (by decide)

/-- C2 counterexample: a Deny produced by the first of two parameter
evaluations does not stop the fan-out — the evaluator is still invoked
twice (the deny only short-circuits aggregation, so the verdict is Fail). -/
theorem deny_does_not_stop_fanout :
    (Process ⟨some fanClient⟩ fanPctx fanRes fanRule fanEv).map
        (fun o => (evalInvocations o.trace).length) = some 2 ∧
    ((fanEv.validate (some "p1") none).decisions.any fun d =>
        d.action == PolicyDecisionAction.Deny) = true ∧
    (Process ⟨some fanClient⟩ fanPctx fanRes fanRule fanEv).map ProcessOutput.responses =
      some [ruleFail "r" "denied"] :=
  ⟨by decide, by decide, by decide⟩

/-- C7: a matching policy exception short-circuits everything: the verdict is
Skip carrying the exception's computed key (or Error on key-computation
failure), the response retains the exception, and no evaluator invocation,
namespace fetch, or parameter resolution happens — unconditionally, before
any other processing. -/
theorem exception_short_circuits_evaluation (h : Handler) (pctx : PolicyContext)
    (resource : Unstructured) (rule : Rule) (ev : Evaluator) (exc : Exc)
    (hexc : pctx.exceptionMatch = some exc) :
    (∀ key, exc.keyResult = Except.ok key →
      Process h pctx resource rule ev =
        some ⟨resource,
          [withException
            (ruleSkip rule.name ("rule skipped due to policy exception " ++ key)) exc],
          []⟩) ∧
    (∀ err, exc.keyResult = Except.error err →
      Process h pctx resource rule ev =
        some ⟨resource, withError rule.name "failed to compute exception key" err, []⟩) := by
  constructor <;> intro k hk <;> unfold Process <;> rw [hexc] <;> simp [hk]

theorem exception_short_circuits_evaluation_witness :
    Process ⟨none⟩ excPctx plainRes plainRule plainEv =
      some ⟨plainRes,
        [withException
          (ruleSkip "r" ("rule skipped due to policy exception " ++ "ens/ename")) excOk],
        []⟩ :=
  (exception_short_circuits_evaluation ⟨none⟩ excPctx plainRes plainRule plainEv excOk
      rfl).1 "ens/ename" rfl

/-- C8 (amended): when the owning policy's status flags a generated
ValidatingAdmissionPolicy and no policy exception matches, the handler
returns an empty response (no verdict) and its effect trace is empty: no
evaluator invocation, namespace fetch, or parameter resolution. -/
theorem generated_vap_empty_response (h : Handler) (pctx : PolicyContext)
    (resource : Unstructured) (rule : Rule) (ev : Evaluator)
    (hexc : pctx.exceptionMatch = none)
    (hvap : pctx.vapGenerated = true) :
    Process h pctx resource rule ev = some ⟨resource, [], []⟩ := by
  unfold Process
  rw [hexc]
  simp [hvap]

theorem generated_vap_empty_response_witness :
    Process ⟨none⟩ ⟨none, true, ⟨"apps", "v1", "Deployment"⟩, ⟨none⟩⟩ plainRes plainRule plainEv =
      some ⟨plainRes, [], []⟩ :=
  generated_vap_empty_response ⟨none⟩ ⟨none, true, ⟨"apps", "v1", "Deployment"⟩, ⟨none⟩⟩
    plainRes plainRule plainEv rfl rfl

/-- C8 counterexample: with the generated flag set and a matching policy
exception, a verdict is emitted (the exception Skip), not an empty
response — the exception check precedes the generated-flag check. -/
theorem exception_overrides_generated_vap :
    vapPctx.vapGenerated = true ∧
    (Process ⟨none⟩ vapPctx plainRes plainRule plainEv).map ProcessOutput.responses =
      some [withException (ruleSkip "r" "rule skipped due to policy exception ns1/e1") vapExc] ∧
    some [withException (ruleSkip "r" "rule skipped due to policy exception ns1/e1") vapExc] ≠
      some ([] : List RuleResponse) :=
  ⟨rfl, rfl, by decide⟩

/-- C9: on every non-panicking execution path, Process returns the incoming
resource object unchanged as the first component of its result. -/
theorem process_returns_resource_unchanged (h : Handler) (pctx : PolicyContext)
    (resource : Unstructured) (rule : Rule) (ev : Evaluator) (out : ProcessOutput)
    (hout : Process h pctx resource rule ev = some out) :
    out.resource = resource := by
  unfold Process at hout
  repeat' split at hout
  all_goals first
    | (injection hout with h2; subst h2; rfl)
    | simp at hout

theorem process_returns_resource_unchanged_witness :
    (⟨plainRes, [], []⟩ : ProcessOutput).resource = plainRes :=
  process_returns_resource_unchanged ⟨none⟩
    ⟨none, true, ⟨"apps", "v1", "Deployment"⟩, ⟨none⟩⟩ plainRes plainRule plainEv
    ⟨plainRes, [], []⟩ rfl

/-- C3 (amended): when the request's kind is exactly core-group v1 Namespace,
the namespace name is forced to empty; the namespace context passed to every
evaluator invocation is then nil — no placeholder namespace object is
synthesized — and no namespace fetch occurs (so never a fetched namespace). -/
theorem namespaceKind_forces_nil_namespace_context (h : Handler)
    (pctx : PolicyContext) (resource : Unstructured) (rule : Rule) (ev : Evaluator)
    (out : ProcessOutput)
    (hgvk : pctx.gvk = ⟨"", "v1", "Namespace"⟩)
    (hout : Process h pctx resource rule ev = some out) :
    effectiveNamespace pctx resource = "" ∧
    (∀ pn ∈ evalInvocations out.trace, pn.2 = (none : Option Namespace)) ∧
    (∀ s, Event.nsFetch s ∉ out.trace) := by
  have heff := effectiveNamespace_nsKind pctx resource hgvk
  refine ⟨heff, ?_⟩
  unfold Process at hout
  rw [heff, resolveNamespace_empty] at hout
  simp only [namespaceTrace_empty, List.nil_append] at hout
  repeat' split at hout
  all_goals first
    | (injection hout with h2; subst h2;
       constructor <;>
         simp [evalInvocations, evalInvocations_map_invoke, List.mem_map, List.mem_cons])
    | simp at hout

theorem namespaceKind_forces_nil_namespace_context_witness :
    effectiveNamespace nsPctx nsRes = "" ∧
    (∀ pn ∈ evalInvocations
        ((⟨nsRes, [rulePass "r" "Validation rule 'r' passed."],
          [Event.evalInvoke none none]⟩ : ProcessOutput).trace),
      pn.2 = (none : Option Namespace)) ∧
    (∀ s, Event.nsFetch s ∉
        ((⟨nsRes, [rulePass "r" "Validation rule 'r' passed."],
          [Event.evalInvoke none none]⟩ : ProcessOutput).trace)) :=
  namespaceKind_forces_nil_namespace_context ⟨some nsClient⟩ nsPctx nsRes nsRule nsEv
    ⟨nsRes, [rulePass "r" "Validation rule 'r' passed."], [Event.evalInvoke none none]⟩
    rfl (by decide)

/-- C3 counterexample: for a core/v1 Namespace request (so an empty namespace
name) the evaluator receives a nil namespace context, not a synthesized
minimal namespace object with an empty name. -/
theorem empty_ns_gives_nil_context_not_placeholder :
    (Process ⟨some nsClient⟩ nsPctx nsRes nsRule nsEv).map
        (fun o => evalInvocations o.trace) = some [(none, none)] ∧
    (none : Option Namespace) ≠ some ⟨"", []⟩ :=
  ⟨by decide, by decide⟩

/-- C5: parameter scoping legality: for a namespace-scoped parameter kind the
effective lookup namespace is the reference's explicit override if set,
otherwise the request's own namespace, and if both are empty resolution
fails with the namespaced-parameter error; for a cluster-scoped kind any
namespace override makes resolution fail. -/
theorem param_scope_legality (c : Client) (pk : ParamKind) (pr : ParamRef)
    (reqNs g v : String)
    (hparse : parseGroupVersion pk.apiVersion = Except.ok (g, v)) :
    (c.isNamespaced g v pk.kind = Except.ok true → pr.nspace = "" → reqNs = "" →
      collectParams (some c) pk pr reqNs =
        some (Except.error "can't use namespaced paramRef to match cluster-scoped resources")) ∧
    (c.isNamespaced g v pk.kind = Except.ok true → pr.name ≠ "" →
      (pr.nspace ≠ "" ∨ reqNs ≠ "") →
      collectParams (some c) pk pr reqNs =
        some (match c.getResource pk.apiVersion pk.kind
            (if pr.nspace ≠ "" then pr.nspace else reqNs) pr.name with
          | Except.error err => Except.error err
          | Except.ok param => Except.ok [param])) ∧
    (c.isNamespaced g v pk.kind = Except.ok false → pr.nspace ≠ "" →
      collectParams (some c) pk pr reqNs =
        some (Except.error
          "paramRef.namespace must not be provided for a cluster-scoped `paramKind`")) := by
  refine ⟨?_, ?_, ?_⟩
  · intro his hn hreq
    unfold collectParams
    rw [hparse]
    simp [his, hn, hreq]
  · intro his hname hor
    unfold collectParams
    rw [hparse]
    by_cases hn : pr.nspace = ""
    · have hreq : ¬reqNs = "" := by
        rcases hor with hcon | hcon
        · exact absurd hn hcon
        · exact hcon
      simp [his, hn, hreq, hname]
    · simp [his, hn, hname]
  · intro his hn
    unfold collectParams
    rw [hparse]
    simp [his, hn]

theorem param_scope_legality_witness :
    collectParams (some scopeClient) ⟨"v1", "ConfigMap"⟩ ⟨"cfg", none, "", none⟩ "reqns" =
      some (Except.ok ["pobj"]) :=
  ((param_scope_legality scopeClient ⟨"v1", "ConfigMap"⟩ ⟨"cfg", none, "", none⟩ "reqns" "" "v1"
      (by decide)).2.1 (by decide) (by decide) (Or.inr (by decide))).trans (by decide)

/-- C6: with a parameter selector matching zero objects: under the deny
not-found policy resolution fails with "no params found" and the evaluator
is never invoked; under allow or unset the resolution succeeds with an empty
set, the evaluator is invoked zero times, and the final verdict is Pass. -/
theorem zero_matching_params_pass_or_error (h : Handler) (pctx : PolicyContext)
    (resource : Unstructured) (rule : Rule) (ev : Evaluator) (nsObj : Option Namespace)
    (c : Client) (pk : ParamKind) (pr : ParamRef) (sel : Selector) (g v : String) (b : Bool)
    (hexc : pctx.exceptionMatch = none)
    (hvap : pctx.vapGenerated = false)
    (hcomp : ev.compileError = none)
    (hns : resolveNamespace h (effectiveNamespace pctx resource) = Except.ok nsObj)
    (hattr : ev.attrError = none)
    (hpk : rule.cel.paramKind = some pk)
    (hpr : rule.cel.paramRef = some pr)
    (hc : h.client = some c)
    (hname : pr.name = "")
    (hsel : pr.selector = some sel)
    (hparse : parseGroupVersion pk.apiVersion = Except.ok (g, v))
    (hisns : c.isNamespaced g v pk.kind = Except.ok b)
    (hleg1 : b = true → ¬(pr.nspace = "" ∧ effectiveNamespace pctx resource = ""))
    (hleg2 : b = false → pr.nspace = "")
    (hlist : ∀ pns, c.listResource pk.apiVersion pk.kind pns sel = Except.ok []) :
    (pr.parameterNotFoundAction = some ParameterNotFoundAction.deny →
      (Process h pctx resource rule ev).map ProcessOutput.responses =
        some [ruleError rule.name "error in parameterized resource" (some "no params found")] ∧
      (Process h pctx resource rule ev).map (fun o => evalInvocations o.trace) = some []) ∧
    ((pr.parameterNotFoundAction = none ∨
        pr.parameterNotFoundAction = some ParameterNotFoundAction.allow) →
      (Process h pctx resource rule ev).map ProcessOutput.responses =
        some [rulePass rule.name ("Validation rule '" ++ rule.name ++ "' passed.")] ∧
      (Process h pctx resource rule ev).map (fun o => evalInvocations o.trace) = some []) := by
  have hcoll : collectParams h.client pk pr (effectiveNamespace pctx resource) =
      some (if pr.parameterNotFoundAction = some ParameterNotFoundAction.deny then
        Except.error "no params found" else Except.ok []) := by
    rw [hc]
    unfold collectParams
    rw [hparse]
    cases b with
    | true =>
      by_cases hn : pr.nspace = ""
      · have hreq : ¬effectiveNamespace pctx resource = "" := by
          intro hcon
          exact hleg1 rfl ⟨hn, hcon⟩
        simp [hisns, hn, hreq, hname, hsel, hlist]
      · simp [hisns, hn, hname, hsel, hlist]
    | false =>
      have hn := hleg2 rfl
      simp [hisns, hn, hname, hsel, hlist]
  have heq := Process_withParam h pctx resource rule ev nsObj pk pr
    hexc hvap hcomp hns hattr hpk hpr
  rw [hcoll] at heq
  constructor
  · intro hdeny
    rw [if_pos hdeny] at heq
    refine ⟨?_, ?_⟩ <;> rw [heq] <;>
      simp [evalInvocations_append, evalInvocations_namespaceTrace, evalInvocations]
  · intro hallow
    have hne : pr.parameterNotFoundAction ≠ some ParameterNotFoundAction.deny := by
      rcases hallow with hcon | hcon <;> simp [hcon]
    rw [if_neg hne] at heq
    refine ⟨?_, ?_⟩ <;> rw [heq] <;>
      simp [aggregateResults, evalInvocations_append, evalInvocations_namespaceTrace,
        evalInvocations]

theorem zero_matching_params_pass_or_error_witness :
    (Process ⟨some zeroClient⟩ zeroPctx zeroRes zeroRuleAllow zeroEv).map
        ProcessOutput.responses =
      some [rulePass "r" ("Validation rule '" ++ "r" ++ "' passed.")] ∧
    (Process ⟨some zeroClient⟩ zeroPctx zeroRes zeroRuleAllow zeroEv).map
        (fun o => evalInvocations o.trace) = some [] :=
  (zero_matching_params_pass_or_error ⟨some zeroClient⟩ zeroPctx zeroRes zeroRuleAllow zeroEv
      (some ⟨"default", []⟩) zeroClient ⟨"v1", "ConfigMap"⟩ ⟨"", some "sel", "", none⟩
      "sel" "" "v1" true
      rfl rfl rfl (by decide) rfl rfl rfl rfl rfl rfl (by decide) rfl
      (fun _ => by decide) (fun _ => rfl) (fun _ => rfl)).2 (Or.inl rfl)

/-- C10 (amended): with a nil resource client, a non-empty namespace name,
and a rule with no parameter declaration, Process does not fail and does not
dereference the nil client: it synthesizes a namespace object whose name
equals the request's namespace name (not the empty-name placeholder), fetches
nothing, and proceeds to invoke the evaluator with it. -/
theorem nil_client_synthesizes_request_namespace (pctx : PolicyContext)
    (resource : Unstructured) (rule : Rule) (ev : Evaluator)
    (hexc : pctx.exceptionMatch = none)
    (hvap : pctx.vapGenerated = false)
    (hcomp : ev.compileError = none)
    (hattr : ev.attrError = none)
    (hns : effectiveNamespace pctx resource ≠ "")
    (hnp : rule.cel.hasParam = false) :
    Process ⟨none⟩ pctx resource rule ev =
      some ⟨resource,
        aggregateResults rule.name
          [ev.validate none (some ⟨effectiveNamespace pctx resource, []⟩)],
        [Event.evalInvoke none (some ⟨effectiveNamespace pctx resource, []⟩)]⟩ := by
  have hres : resolveNamespace ⟨none⟩ (effectiveNamespace pctx resource) =
      Except.ok (some ⟨effectiveNamespace pctx resource, []⟩) := by
    simp [resolveNamespace, hns]
  have heq := Process_noParam ⟨none⟩ pctx resource rule ev
    (some ⟨effectiveNamespace pctx resource, []⟩) hexc hvap hcomp hres hattr hnp
  rw [heq, namespaceTrace_nilClient, List.nil_append]

theorem nil_client_synthesizes_request_namespace_witness :
    Process ⟨none⟩ panPctx panRes plainRule plainEv =
      some ⟨panRes,
        aggregateResults "r" [plainEv.validate none (some ⟨"prod", []⟩)],
        [Event.evalInvoke none (some ⟨"prod", []⟩)]⟩ :=
  nil_client_synthesizes_request_namespace panPctx panRes plainRule plainEv
    rfl rfl rfl rfl (by decide) rfl

/-- C10 counterexample: with a nil client, a non-empty namespace name, and a
rule that does declare parameters, Process dereferences the nil client inside
collectParams — a runtime panic (the modelled panic result) — so the claim
fails for parameterized rules. -/
theorem nil_client_with_params_panics :
    Process ⟨none⟩ panPctx panRes panRule plainEv = none ∧
    effectiveNamespace panPctx panRes ≠ "" ∧
    panRule.cel.hasParam = true :=
  ⟨rfl, by decide, rfl⟩

end KyvernoCel
